import Mathlib

/-!
Verification of the Adam CPWplus scale driver (`src/AdamCPWplusDriver.py`).

Byte buffers are modelled as `List Nat` (one entry per byte).  The two
byte-string patterns of the driver,

  CPW_MEASURE_REGEXP = rb"(?:[GN]/W\s*)?[+-]\s*([0-9.]+)\s+(?:lb|kg|oz)"
  CPW_SIGN_REGEXP    = rb"(?:[GN]/W\s*)?(-)\s*[0-9.]"

are translated into executable matchers.  Both patterns are deterministic
in the backtracking sense: every greedy sub-pattern (`\s*`, `[0-9.]+`,
`\s+`, and the optional `(?:[GN]/W\s*)?` prefix) is followed by a
character class disjoint from the one it repeats (signs, digits/dots and
unit letters are never whitespace, and `G`/`N` are never sign
characters), so Python's leftmost backtracking search coincides with the
maximal-munch scan implemented below.  `re.search` tries every start
position from the left; this is the suffix scan of the `search...`
functions.
-/

namespace CPWplus

/-- Python `\s` on a bytes pattern: space, `\t`, `\n`, `\v`, `\f`, `\r`. -/
def isWs (b : Nat) : Bool := b == 32 || b == 9 || b == 10 || b == 11 || b == 12 || b == 13

/-- ASCII decimal digit `[0-9]`. -/
def isDigit (b : Nat) : Bool := 48 ≤ b && b ≤ 57

/-- The class `[0-9.]` of the magnitude capture group. -/
def isNumChar (b : Nat) : Bool := isDigit b || b == 46

/-- The class `[+-]`. -/
def isSignChar (b : Nat) : Bool := b == 43 || b == 45

/-- Drop a maximal run of whitespace (`\s*` against a disjoint successor class). -/
def skipWs : List Nat → List Nat
  | [] => []
  | b :: rest => if isWs b then skipWs rest else b :: rest

/-- Split off a maximal run of digits. -/
def takeDigits : List Nat → List Nat × List Nat
  | [] => ([], [])
  | b :: rest =>
    if isDigit b then
      let p := takeDigits rest
      (b :: p.1, p.2)
    else ([], b :: rest)

/-- Split off a maximal run of `[0-9.]` characters (the `([0-9.]+)` group). -/
def takeNum : List Nat → List Nat × List Nat
  | [] => ([], [])
  | b :: rest =>
    if isNumChar b then
      let p := takeNum rest
      (b :: p.1, p.2)
    else ([], b :: rest)

/-- `leadTok t s` : the byte string `t` occurs at the head of `s`. -/
def leadTok : List Nat → List Nat → Bool
  | [], _ => true
  | _ :: _, [] => false
  | t :: ts, b :: bs => t == b && leadTok ts bs

/-- The optional `(?:[GN]/W\s*)?` prefix: consume `G/W` or `N/W` plus
trailing whitespace when present.  (If the token is present but the rest
of the pattern fails, Python's fallback to the empty alternative also
fails, because `G`/`N` is not a sign character, so committing here is
faithful.)  `G` = 71, `N` = 78, `/` = 47, `W` = 87. -/
def dropTok (s : List Nat) : List Nat :=
  match s with
  | 71 :: 47 :: 87 :: rest => skipWs rest
  | 78 :: 47 :: 87 :: rest => skipWs rest
  | _ => s

/-- The unit alternation `(?:lb|kg|oz)` at the head of the buffer.
`lb` = [108, 98], `kg` = [107, 103], `oz` = [111, 122]. -/
def unitAt (s : List Nat) : Bool :=
  leadTok [108, 98] s || leadTok [107, 103] s || leadTok [111, 122] s

/-- After the magnitude: `\s+(?:lb|kg|oz)` — at least one whitespace byte,
then the unit. -/
def afterNum : List Nat → Bool
  | [] => false
  | c :: r4 => isWs c && unitAt (skipWs r4)

/-- One anchored attempt of the prefix-less pattern
`[+-]\s*([0-9.]+)\s+(?:lb|kg|oz)` (the probe pattern at line 171 of the
driver); returns the `([0-9.]+)` capture on success. -/
def signMagUnitAt (s : List Nat) : Option (List Nat) :=
  match s with
  | [] => none
  | b :: rest =>
    if isSignChar b then
      let p := takeNum (skipWs rest)
      if !p.1.isEmpty && afterNum p.2 then some p.1 else none
    else none

/-- One anchored attempt of `CPW_MEASURE_REGEXP` (optional `[GN]/W` token,
then sign, magnitude, unit); returns group 1. -/
def measureAt (s : List Nat) : Option (List Nat) :=
  signMagUnitAt (dropTok s)

/-- `re.search(CPW_MEASURE_REGEXP, answer)` and `match.group(1)`:
leftmost match of the measure pattern, returning the numeric capture. -/
def searchMeasure : List Nat → Option (List Nat)
  | [] => none
  | b :: rest =>
    match measureAt (b :: rest) with
    | some g => some g
    | none => searchMeasure rest

/-- One anchored attempt of `CPW_SIGN_REGEXP = rb"(?:[GN]/W\s*)?(-)\s*[0-9.]"`.
Only existence matters for the driver; a match with the `[GN]/W` token
present contains a prefix-less match starting at its `-`, so the
anchored attempt needs only the `(-)\s*[0-9.]` core.  `-` = 45. -/
def signAt : List Nat → Bool
  | [] => false
  | b :: rest =>
    b == 45 &&
      match skipWs rest with
      | [] => false
      | c :: _ => isNumChar c

/-- `re.search(CPW_SIGN_REGEXP, answer) is not None`. -/
def searchSign : List Nat → Bool
  | [] => false
  | b :: rest => signAt (b :: rest) || searchSign rest

/-- `tok in answer` on Python byte strings: substring containment. -/
def containsTok (t : List Nat) : List Nat → Bool
  | [] => leadTok t []
  | b :: rest => leadTok t (b :: rest) || containsTok t rest

/-- `re.search(rb"[+-]\s*[0-9.]+\s+(?:lb|kg|oz)", answer) is not None`
(the probe's bare weight pattern, line 171). -/
def searchBare : List Nat → Bool
  | [] => false
  | b :: rest => (signMagUnitAt (b :: rest)).isSome || searchBare rest

/-- `G/W` as bytes. -/
def gwTok : List Nat := [71, 47, 87]

/-- `N/W` as bytes. -/
def nwTok : List Nat := [78, 47, 87]

/-- The probe's classification of a captured reply (lines 170-175):
`b'G/W' in answer or b'N/W' in answer or re.search(bare pattern, answer)`. -/
def classifyAnswer (answer : List Nat) : Bool :=
  containsTok gwTok answer || containsTok nwTok answer || searchBare answer

/-- Numeric value of a digit string, most significant first. -/
def digitsVal (s : List Nat) : Nat :=
  s.foldl (fun acc b => acc * 10 + (b - 48)) 0

/-- Python `float()` applied to the capture of `([0-9.]+)`: the argument
is a non-empty string over digits and dots; conversion succeeds exactly
on `<digits>`, `<digits>.<digits>`, `.<digits>` or `<digits>.` with at
least one digit overall, and raises `ValueError` otherwise (e.g. on
`"."` or `"1.2.3"`), modelled by `none`.  The value is exact, as a
rational. -/
def parseFloat (s : List Nat) : Option ℚ :=
  let p := takeDigits s
  match p.2 with
  | [] => if p.1.isEmpty then none else some (digitsVal p.1)
  | 46 :: r2 =>
    let q := takeDigits r2
    match q.2 with
    | [] =>
      if p.1.isEmpty && q.1.isEmpty then none
      else some ((digitsVal p.1 : ℚ) + (digitsVal q.1 : ℚ) / (10 : ℚ) ^ q.1.length)
    | _ => none
  | _ => none

/-- `AdamCPWplusDriver._read_weight` (lines 212-244), given the raw
captured response `answer` and the previous `self.data.get('result')`
(`none` when no prior reading exists).  Returns the new `result` value,
or `Except.error ()` when `float(match.group(1))` raises. -/
def read_weight (answer : List Nat) (prev : Option ℚ) : Except Unit ℚ :=
  match searchMeasure answer with
  | some g =>
    match parseFloat g with
    | some w => .ok (if searchSign answer then -w else w)
    | none => .error ()
  | none => .ok (prev.getD 0)

/-- `CPWplusProtocol.commandTerminator = b'\r\n'` (line 75). -/
def commandTerminator : List Nat := [13, 10]

/-- One observable serial interaction of an action handler. -/
inductive SerialEvent where
  | write (bytes : List Nat)
  | read (n : Nat)
  deriving DecidableEq

/-- Discriminator for write events. -/
def SerialEvent.isWrite : SerialEvent → Bool
  | .write _ => true
  | .read _ => false

/-- `_tare_action` (lines 120-124): the serial traffic it produces — one
`connection.write(b'T' + commandTerminator)` and no read.  `T` = 84. -/
def tare_action_events : List SerialEvent :=
  [SerialEvent.write ([84] ++ commandTerminator)]

/-- `_zero_action` (lines 126-130): one
`connection.write(b'Z' + commandTerminator)` and no read.  `Z` = 90. -/
def zero_action_events : List SerialEvent :=
  [SerialEvent.write ([90] ++ commandTerminator)]

/-- The flow-control output lines of an open serial connection. -/
structure Conn where
  dtr : Bool
  rts : Bool
  deriving DecidableEq

/-- `_disable_flow_control` (lines 97-106): deassert both lines. -/
def disable_flow_control (_c : Conn) : Conn := { dtr := false, rts := false }

/-- The flow-control re-check at the head of `_take_measure`
(lines 197-201): `if self._connection and self._connection.dtr:
self._disable_flow_control(self._connection)`.  Returns the line state
at the moment the measure command is written by the parent call. -/
def take_measure_lines (conn : Option Conn) : Option Conn :=
  match conn with
  | none => none
  | some c => if c.dtr then some (disable_flow_control c) else some c

/-- The identical re-check at the head of `_do_action` (lines 203-207). -/
def do_action_lines (conn : Option Conn) : Option Conn :=
  match conn with
  | none => none
  | some c => if c.dtr then some (disable_flow_control c) else some c

/-- Outcome of the serial interaction inside the `try` block of
`supported` (lines 150-181): either the probe captured `answer` bytes,
or a `SerialTimeoutException` was raised, or any other exception. -/
inductive ProbeOutcome where
  | answer (a : List Nat)
  | timeoutExc
  | otherExc

/-- `AdamCPWplusDriver.supported` (lines 135-192) as a function of the
device's behaviour: the classification of a captured reply, and `False`
on a timeout or on any other exception (both `except` handlers log and
fall through to `return False`). -/
def supported : ProbeOutcome → Bool
  | .answer a => classifyAnswer a
  | .timeoutExc => false
  | .otherExc => false

/-- `t` occurs as a contiguous substring of `s` (at some offset `i`). -/
def HasTok (t s : List Nat) : Prop := ∃ i, leadTok t (List.drop i s) = true

/-- Some suffix of `s` matches the bare sign+magnitude+unit pattern. -/
def BareMatch (s : List Nat) : Prop := ∃ i, (signMagUnitAt (List.drop i s)).isSome = true

/-- Claim C1: for the well-formed response buffers, the measure parse
yields the decoded weight — `b"G/W  + 5.00 lb\r\n"` parses to `5.00`,
`b"N/W  - 0.50 kg\r\n"` to `-0.50`, and the prefix-less
`b"+  12.5  oz\r\n"` to `12.5`. -/
theorem claim1_parse_valid_responses :
    read_weight [71, 47, 87, 32, 32, 43, 32, 53, 46, 48, 48, 32, 108, 98, 13, 10] none =
      .ok 5 ∧
    read_weight [78, 47, 87, 32, 32, 45, 32, 48, 46, 53, 48, 32, 107, 103, 13, 10] none =
      .ok (-(1/2)) ∧
    read_weight [43, 32, 32, 49, 50, 46, 53, 32, 32, 111, 122, 13, 10] none =
      .ok (25/2) := by
  refine ⟨?_, ?_, ?_⟩ <;>
    simp +decide [read_weight, searchMeasure, measureAt, signMagUnitAt, dropTok, skipWs,
      takeNum, afterNum, unitAt, leadTok, isWs, isNumChar, isDigit, isSignChar,
      searchSign, signAt, parseFloat, takeDigits, digitsVal, List.foldl] <;>
    norm_num

/-- Claim C5: `supported` never propagates an exception — a serial
timeout during probing yields `false`, and any other exception during
probing also yields `false`; on a captured answer it returns the
classification. -/
theorem claim5_probe_never_raises :
    supported ProbeOutcome.timeoutExc = false ∧
    supported ProbeOutcome.otherExc = false ∧
    ∀ a, supported (ProbeOutcome.answer a) = classifyAnswer a :=
  ⟨rfl, rfl, fun _ => rfl⟩

/-- Claim C7 counterexample: with DTR deasserted but RTS asserted on
entry, neither `_take_measure` nor `_do_action` re-applies the
deassertion (the guard tests only `connection.dtr`), so the command is
issued with RTS still asserted — refuting the claim for the "RTS only"
states. -/
theorem claim7_counterexample :
    take_measure_lines (some { dtr := false, rts := true }) =
      some { dtr := false, rts := true } ∧
    do_action_lines (some { dtr := false, rts := true }) =
      some { dtr := false, rts := true } ∧
    ({ dtr := false, rts := true } : Conn).rts = true :=
  ⟨rfl, rfl, rfl⟩

/-- Claim C7 amended: the re-check before a measurement or a dispatched
action tests only the DTR line: when DTR is asserted on entry, both
lines are deasserted before the command is written; when DTR is
deasserted, the lines are left untouched (so an asserted RTS stays
asserted). -/
theorem claim7_amended_dtr_only (c : Conn) :
    (c.dtr = true →
      take_measure_lines (some c) = some { dtr := false, rts := false } ∧
      do_action_lines (some c) = some { dtr := false, rts := false }) ∧
    (c.dtr = false →
      take_measure_lines (some c) = some c ∧
      do_action_lines (some c) = some c) := by
  constructor <;> intro h <;>
    simp [take_measure_lines, do_action_lines, disable_flow_control, h]

/-- Witness for the amended C7 at the concrete state DTR = RTS = true. -/
theorem claim7_witness :
    take_measure_lines (some { dtr := true, rts := true }) =
      some { dtr := false, rts := false } ∧
    do_action_lines (some { dtr := true, rts := true }) =
      some { dtr := false, rts := false } :=
  (claim7_amended_dtr_only { dtr := true, rts := true }).1 rfl

/-- Claim C8: `_tare_action` writes exactly one frame, the command byte
`T` followed by the terminator `\r\n`; `_zero_action` writes exactly the
one frame `Z` `\r\n`; neither trace contains a read. -/
theorem claim8_tare_zero_single_frame :
    tare_action_events = [SerialEvent.write [84, 13, 10]] ∧
    zero_action_events = [SerialEvent.write [90, 13, 10]] ∧
    (∀ e ∈ tare_action_events, e.isWrite = true) ∧
    (∀ e ∈ zero_action_events, e.isWrite = true) := by
  refine ⟨rfl, rfl, ?_, ?_⟩ <;> decide

/-- Claim C10: sign detection scans the entire raw buffer.  On
`b"G/W + 5.00 lb -1\r\n"` the matched weight field is `+ 5.00 lb`
(capture `"5.00"`, sign character `+`), yet the trailing `-1` after the
unit makes the sign pattern match, so the reported value is the negated
magnitude `-5`. -/
theorem claim10_sign_scans_whole_buffer :
    searchMeasure [71, 47, 87, 32, 43, 32, 53, 46, 48, 48, 32, 108, 98, 32, 45, 49, 13, 10] =
      some [53, 46, 48, 48] ∧
    searchSign [71, 47, 87, 32, 43, 32, 53, 46, 48, 48, 32, 108, 98, 32, 45, 49, 13, 10] =
      true ∧
    read_weight [71, 47, 87, 32, 43, 32, 53, 46, 48, 48, 32, 108, 98, 32, 45, 49, 13, 10] none =
      .ok (-5) := by
  refine ⟨rfl, rfl, ?_⟩
  simp +decide [read_weight, searchMeasure, measureAt, signMagUnitAt, dropTok, skipWs,
    takeNum, afterNum, unitAt, leadTok, isWs, isNumChar, isDigit, isSignChar,
    searchSign, signAt, parseFloat, takeDigits, digitsVal, List.foldl]

/-- Claim C6 counterexample: on `b"+ . lb\r\n"` the magnitude pattern
matches with capture `"."`, and `float(b'.')` raises `ValueError`
(modelled as `Except.error`), so the parse step is not total as
claimed. -/
theorem claim6_counterexample :
    searchMeasure [43, 32, 46, 32, 108, 98, 13, 10] = some [46] ∧
    read_weight [43, 32, 46, 32, 108, 98, 13, 10] none = .error () :=
  ⟨rfl, rfl⟩

/-- A successful float conversion of a `[0-9.]+` capture is nonnegative. -/
theorem parseFloat_nonneg (s : List Nat) (w : ℚ) (h : parseFloat s = some w) : 0 ≤ w := by
  simp only [parseFloat] at h
  split at h
  · split at h
    · simp at h
    · obtain rfl := Option.some.inj h
      positivity
  · split at h
    · split at h
      · simp at h
      · obtain rfl := Option.some.inj h
        positivity
    · simp at h
  · simp at h

/-- Claim C2: whenever the magnitude pattern matches (capture `g`,
converted value `w`), the sign of the reported weight is determined
exclusively by whether the sign pattern matches the same buffer: the
result is `-w` when it does and `w` when it does not — in particular,
when the sign pattern does not match, the value is the nonnegative
`w`. -/
theorem claim2_sign_from_sign_pattern (answer g : List Nat) (w : ℚ) (prev : Option ℚ)
    (hm : searchMeasure answer = some g) (hf : parseFloat g = some w) :
    read_weight answer prev = .ok (if searchSign answer then -w else w) ∧
    (searchSign answer = false → read_weight answer prev = .ok w ∧ 0 ≤ w) := by
  have hrw : read_weight answer prev = .ok (if searchSign answer then -w else w) := by
    simp only [read_weight, hm, hf]
  refine ⟨hrw, fun hs => ⟨?_, parseFloat_nonneg g w hf⟩⟩
  rw [hrw, hs]
  simp

/-- Witness for C2 at `b"G/W  + 5.00 lb\r\n"` (capture `"5.00"`, value `5`). -/
theorem claim2_witness :
    read_weight [71, 47, 87, 32, 32, 43, 32, 53, 46, 48, 48, 32, 108, 98, 13, 10] none =
      .ok (if searchSign [71, 47, 87, 32, 32, 43, 32, 53, 46, 48, 48, 32, 108, 98, 13, 10]
        then -(5 : ℚ) else 5) ∧
    (searchSign [71, 47, 87, 32, 32, 43, 32, 53, 46, 48, 48, 32, 108, 98, 13, 10] = false →
      read_weight [71, 47, 87, 32, 32, 43, 32, 53, 46, 48, 48, 32, 108, 98, 13, 10] none =
        .ok 5 ∧ (0 : ℚ) ≤ 5) :=
  claim2_sign_from_sign_pattern _ [53, 46, 48, 48] 5 none rfl
    (by simp +decide [parseFloat, takeDigits, digitsVal, isDigit, List.foldl])

/-- Claim C3: when the magnitude pattern fails to match, `measure()`
keeps the previous reading: the stored result is the previous value
whenever one exists, and `0` only when no prior reading exists. -/
theorem claim3_fallback_previous (answer : List Nat) (prev : Option ℚ)
    (h : searchMeasure answer = none) :
    read_weight answer prev = .ok (prev.getD 0) ∧
    (∀ v : ℚ, prev = some v → read_weight answer prev = .ok v) ∧
    (prev = none → read_weight answer prev = .ok 0) := by
  have hrw : read_weight answer prev = .ok (prev.getD 0) := by
    simp only [read_weight, h]
  refine ⟨hrw, fun v hv => ?_, fun hn => ?_⟩
  · rw [hrw, hv]; rfl
  · rw [hrw, hn]; rfl

/-- Witness for C3 on the garbage buffer `b"\x00\x01"`. -/
theorem claim3_witness :
    read_weight [0, 1] (some (7/2)) = .ok (7/2) ∧ read_weight [0, 1] none = .ok 0 :=
  ⟨(claim3_fallback_previous [0, 1] (some (7/2)) rfl).2.1 (7/2) rfl,
   (claim3_fallback_previous [0, 1] none rfl).2.2 rfl⟩

/-- The containment scan finds `t` exactly when `t` heads some suffix. -/
theorem containsTok_iff (t s : List Nat) : containsTok t s = true ↔ HasTok t s := by
  induction s with
  | nil =>
    simp [containsTok, HasTok]
  | cons b rest ih =>
    simp only [containsTok, Bool.or_eq_true, ih]
    constructor
    · rintro (h | ⟨i, hi⟩)
      · exact ⟨0, h⟩
      · exact ⟨i + 1, hi⟩
    · rintro ⟨i, hi⟩
      cases i with
      | zero => exact Or.inl hi
      | succ j => exact Or.inr ⟨j, hi⟩

/-- The bare-pattern scan succeeds exactly when some suffix matches the
sign+magnitude+unit pattern. -/
theorem searchBare_iff (s : List Nat) : searchBare s = true ↔ BareMatch s := by
  induction s with
  | nil =>
    simp [searchBare, BareMatch, signMagUnitAt]
  | cons b rest ih =>
    simp only [searchBare, Bool.or_eq_true, ih]
    constructor
    · rintro (h | ⟨i, hi⟩)
      · exact ⟨0, h⟩
      · exact ⟨i + 1, hi⟩
    · rintro ⟨i, hi⟩
      cases i with
      | zero => exact Or.inl hi
      | succ j => exact Or.inr ⟨j, hi⟩

/-- Claim C4: the probe's classification of a captured reply is true
exactly when the buffer contains the token `G/W`, or contains `N/W`, or
some position matches the bare `[+-]\s*[0-9.]+\s+(lb|kg|oz)` pattern;
on the unrelated ASCII noise `b"OK\r\n"` it is false. -/
theorem claim4_probe_classification :
    (∀ answer : List Nat,
      classifyAnswer answer = true ↔
        (HasTok gwTok answer ∨ HasTok nwTok answer ∨ BareMatch answer)) ∧
    classifyAnswer [79, 75, 13, 10] = false := by
  refine ⟨fun answer => ?_, rfl⟩
  simp [classifyAnswer, containsTok_iff, searchBare_iff, or_assoc]

/-- `takeDigits` splits the input: taken run plus rest is the input. -/
theorem takeDigits_append (s : List Nat) : (takeDigits s).1 ++ (takeDigits s).2 = s := by
  induction s with
  | nil => rfl
  | cons b rest ih =>
    by_cases hb : isDigit b = true
    · simp [takeDigits, hb, ih]
    · simp [takeDigits, hb]

/-- Every byte of the run taken by `takeDigits` is a digit. -/
theorem takeDigits_fst (s : List Nat) : ∀ b ∈ (takeDigits s).1, isDigit b = true := by
  induction s with
  | nil => intro b hb; simp [takeDigits] at hb
  | cons c rest ih =>
    intro b hb
    by_cases hc : isDigit c = true
    · simp [takeDigits, hc] at hb
      rcases hb with rfl | hb
      · exact hc
      · exact ih b hb
    · simp [takeDigits, hc] at hb

/-- The first byte left behind by `takeDigits` is not a digit. -/
theorem takeDigits_snd_head (s : List Nat) (c : Nat) (r : List Nat)
    (h : (takeDigits s).2 = c :: r) : isDigit c = false := by
  induction s with
  | nil => simp [takeDigits] at h
  | cons b rest ih =>
    by_cases hb : isDigit b = true
    · simp [takeDigits, hb] at h
      exact ih h
    · simp [takeDigits, hb] at h
      obtain ⟨rfl, -⟩ := h
      simpa using hb

/-- Every byte of the run taken by `takeNum` is in the class `[0-9.]`. -/
theorem takeNum_fst (s : List Nat) : ∀ b ∈ (takeNum s).1, isNumChar b = true := by
  induction s with
  | nil => intro b hb; simp [takeNum] at hb
  | cons c rest ih =>
    intro b hb
    by_cases hc : isNumChar c = true
    · simp [takeNum, hc] at hb
      rcases hb with rfl | hb
      · exact hc
      · exact ih b hb
    · simp [takeNum, hc] at hb

/-- The capture returned by an anchored bare-pattern match is a run
produced by `takeNum`. -/
theorem signMagUnitAt_capture (s g : List Nat) (h : signMagUnitAt s = some g) :
    ∃ r, g = (takeNum r).1 := by
  cases s with
  | nil => simp [signMagUnitAt] at h
  | cons b rest =>
    simp only [signMagUnitAt] at h
    split at h
    · split at h
      · exact ⟨skipWs rest, (Option.some.inj h).symm⟩
      · simp at h
    · simp at h

/-- The capture returned by the measure search is a run produced by
`takeNum`. -/
theorem searchMeasure_capture (a g : List Nat) (h : searchMeasure a = some g) :
    ∃ r, g = (takeNum r).1 := by
  induction a with
  | nil => simp [searchMeasure] at h
  | cons b rest ih =>
    simp only [searchMeasure] at h
    rcases hm : measureAt (b :: rest) with _ | g'
    · rw [hm] at h
      exact ih h
    · rw [hm] at h
      obtain rfl : g' = g := Option.some.inj h
      exact signMagUnitAt_capture (dropTok (b :: rest)) _ (by simpa [measureAt] using hm)

/-- Float conversion succeeds on any `[0-9.]` string with at least one
digit and at most one dot. -/
theorem parseFloat_wellformed (g : List Nat)
    (hnum : ∀ b ∈ g, isNumChar b = true)
    (hdot : g.count 46 ≤ 1)
    (hdig : ∃ b ∈ g, isDigit b = true) :
    ∃ w, parseFloat g = some w := by
  obtain ⟨d, hdmem, hd⟩ := hdig
  have happ := takeDigits_append g
  rcases h2 : (takeDigits g).2 with _ | ⟨c, r⟩
  · -- no non-digit byte: the capture is all digits and nonempty
    have hne : ¬(takeDigits g).1.isEmpty = true := by
      intro he
      rw [List.isEmpty_iff] at he
      rw [h2, he] at happ
      simp at happ
      rw [happ] at hdmem
      simp at hdmem
    refine ⟨(digitsVal (takeDigits g).1 : ℚ), ?_⟩
    simp only [parseFloat, h2]
    simp [hne]
  · -- one non-digit byte: it must be the dot
    have hcmem : c ∈ g := by
      rw [← happ, h2]
      simp
    have hc46 : c = 46 := by
      have hcd := takeDigits_snd_head g c r h2
      simpa [isNumChar, hcd] using hnum c hcmem
    subst hc46
    have happr := takeDigits_append r
    -- everything after the dot is digits: a second dot would make two
    have hr : (takeDigits r).2 = [] := by
      rcases hq2 : (takeDigits r).2 with _ | ⟨e, r'⟩
      · rfl
      · exfalso
        have hemem : e ∈ g := by
          rw [← happ, h2, ← happr, hq2]
          simp
        have he46 : e = 46 := by
          have hed := takeDigits_snd_head r e r' hq2
          simpa [isNumChar, hed] using hnum e hemem
        subst he46
        rw [← happ, h2, ← happr, hq2] at hdot
        simp +decide [List.count_append, List.count_cons] at hdot
        omega
    -- at least one side of the dot holds the digit
    have hre : (takeDigits r).1 = r := by
      rw [hr] at happr
      simpa using happr
    have hne : ¬((takeDigits g).1.isEmpty && (takeDigits r).1.isEmpty) = true := by
      intro hb
      rw [Bool.and_eq_true, List.isEmpty_iff, List.isEmpty_iff] at hb
      have hrnil : r = [] := by
        rw [← hre]
        exact hb.2
      have hg46 : g = [46] := by
        rw [← happ, h2, hb.1, hrnil]
        rfl
      rw [hg46] at hdmem
      rcases List.mem_singleton.mp hdmem with rfl
      simp [isDigit] at hd
    refine ⟨(digitsVal (takeDigits g).1 : ℚ) +
      (digitsVal (takeDigits r).1 : ℚ) / (10 : ℚ) ^ (takeDigits r).1.length, ?_⟩
    simp only [parseFloat, h2, hr]
    rw [if_neg hne]

/-- Claim C6 amended: the parse step always terminates, but is not
exception-free as stated: when the magnitude pattern matches, the float
conversion of the capture succeeds — and `_read_weight` stores a value
rather than raising — whenever the capture contains at least one digit
and at most one dot; a capture without a digit, such as `"."`, makes
`float()` raise `ValueError`. -/
theorem claim6_amended_conversion (answer g : List Nat) (prev : Option ℚ)
    (hm : searchMeasure answer = some g)
    (hdot : g.count 46 ≤ 1) (hdig : ∃ b ∈ g, isDigit b = true) :
    ∃ w : ℚ, read_weight answer prev = .ok w := by
  have hnum : ∀ b ∈ g, isNumChar b = true := by
    obtain ⟨r, hr⟩ := searchMeasure_capture answer g hm
    rw [hr]
    exact takeNum_fst r
  obtain ⟨w, hw⟩ := parseFloat_wellformed g hnum hdot hdig
  exact ⟨if searchSign answer then -w else w, by simp only [read_weight, hm, hw]⟩

/-- Witness for the amended C6 at `b"+ .5 lb\r\n"` (capture `".5"`). -/
theorem claim6_witness :
    ∃ w : ℚ, read_weight [43, 32, 46, 53, 32, 108, 98, 13, 10] none = .ok w :=
  claim6_amended_conversion [43, 32, 46, 53, 32, 108, 98, 13, 10] [46, 53] none rfl
    (by decide) (by decide)

/-- Prepending a `0` to a magnitude that float conversion accepts keeps
the converted value unchanged. -/
theorem parseFloat_cons_zero (s : List Nat) (w : ℚ) (h : parseFloat s = some w) :
    parseFloat (48 :: s) = some w := by
  have htd : takeDigits (48 :: s) = (48 :: (takeDigits s).1, (takeDigits s).2) := by
    simp +decide [takeDigits]
  have hdv : digitsVal (48 :: (takeDigits s).1) = digitsVal (takeDigits s).1 := by
    simp [digitsVal]
  simp only [parseFloat, htd] at h ⊢
  split at h
  · split at h
    · simp at h
    · obtain rfl := Option.some.inj h
      simp [hdv]
  · rename_i r2 heq
    rcases hq : (takeDigits r2).2 with _ | ⟨e, r3⟩
    · simp only [hq] at h ⊢
      split at h
      · simp at h
      · obtain rfl := Option.some.inj h
        rw [if_neg (by simp)]
        rw [hdv]
    · simp only [hq] at h
      simp at h
  · simp at h

/-- `takeDigits` consumes an all-digit list whole. -/
theorem takeDigits_all (l : List Nat) (h : ∀ b ∈ l, isDigit b = true) :
    takeDigits l = (l, []) := by
  induction l with
  | nil => rfl
  | cons b rest ih =>
    have hb := h b (List.mem_cons_self b rest)
    simp [takeDigits, hb, ih fun c hc => h c (List.mem_cons_of_mem b hc)]

/-- Claim C9: the magnitude is read as a base-10 decimal — a magnitude
with no digits before the decimal point parses as `0.x`
(`b"+ .5 lb\r\n"` parses to `0.5`; in general `.digits` parses to
digits scaled by the power of ten of its length), and a magnitude with a
prepended leading `0` parses to the same value as the number without
it. -/
theorem claim9_decimal_semantics :
    read_weight [43, 32, 46, 53, 32, 108, 98, 13, 10] none = .ok (1/2) ∧
    (∀ ds : List Nat, (∀ b ∈ ds, isDigit b = true) → ds ≠ [] →
      parseFloat (46 :: ds) =
        some ((digitsVal ds : ℚ) / (10 : ℚ) ^ ds.length)) ∧
    (∀ (s : List Nat) (w : ℚ), parseFloat s = some w → parseFloat (48 :: s) = some w) := by
  refine ⟨?_, fun ds hds hne => ?_, fun s w h => parseFloat_cons_zero s w h⟩
  · simp +decide [read_weight, searchMeasure, measureAt, signMagUnitAt, dropTok, skipWs,
      takeNum, afterNum, unitAt, leadTok, isWs, isNumChar, isDigit, isSignChar,
      searchSign, signAt, parseFloat, takeDigits, digitsVal, List.foldl] <;>
    norm_num
  · have h46 : takeDigits (46 :: ds) = ([], 46 :: ds) := by
      simp +decide [takeDigits]
    simp only [parseFloat, h46, takeDigits_all ds hds]
    rw [if_neg (by simp [List.isEmpty_iff, hne])]
    simp [digitsVal]

/-- Witness for C9: the capture `".5"` parses to `5/10`, and prepending
`0` to it keeps the value `0.5`. -/
theorem claim9_witness :
    parseFloat [46, 53] = some ((digitsVal [53] : ℚ) / (10 : ℚ) ^ [53].length) ∧
    parseFloat [48, 46, 53] = some (1/2) :=
  ⟨claim9_decimal_semantics.2.1 [53] (by decide) (by decide),
   claim9_decimal_semantics.2.2 [46, 53] (1/2)
     (by simp +decide [parseFloat, takeDigits, digitsVal, isDigit, List.foldl] <;> norm_num)⟩

end CPWplus
